import Mathlib

/-!
Verification of the arduino-pin-toggler library (`pinToggler.h`).

The library drives N output pins from one periodic timer interrupt.
Each pin slot keeps an 8-bit phase counter (`_LED_count`) and an 8-bit
increment (`_LED_add`).  On every tick `doLoop` adds the increment to
the counter (unsigned 8-bit arithmetic, i.e. mod 256); when the counter
reaches 8 it is reset to 0 and the pin's digital level is inverted.

The embedding below models:
  * `FLASHRATE`          — the rate enum (OFF/SLOW/MEDIUM/FAST/MAX = 0/1/2/4/8);
  * `TogglerState n`     — the per-instance arrays `_LED_Pins`, `_LED_count`, `_LED_add`;
  * `MachineState n`     — a toggler instance together with the digital pin levels
                           (`world : Nat → Bool`, `false` = LOW, `true` = HIGH);
  * `doLoop`             — the ISR body, a left fold over the pin slots that threads
                           the counters and the pin levels exactly as the C++ loop does;
  * `GlobalState`        — the process-wide singleton pointer `_instance` plus the
                           pin-mode and pin-level maps of the platform layer;
  * `init`/`setFlashRate` — the two static entry points, with their error codes.
-/

set_option maxHeartbeats 1000000

namespace pinToggler

/-- The FLASHRATE enum of the source. -/
inductive FLASHRATE where
  | OFF
  | SLOW
  | MEDIUM
  | FAST
  | MAX
deriving DecidableEq

/-- Numeric value of each enum constant (`OFF = 0, SLOW = 1, MEDIUM = 2, FAST = 4, MAX = 8`). -/
def FLASHRATE.val : FLASHRATE → Nat
  | .OFF => 0
  | .SLOW => 1
  | .MEDIUM => 2
  | .FAST => 4
  | .MAX => 8

/-- The per-instance state of `pinToggler<numPins>`: the three member arrays.
All entries are `uint8_t` in the source; they are modelled as `Nat` with the
mod-256 reduction written explicitly at the one arithmetic operation. -/
structure TogglerState (numPins : Nat) where
  LED_Pins : Fin numPins → Nat
  LED_count : Fin numPins → Nat
  LED_add : Fin numPins → Nat

/-- A toggler instance together with the digital levels of all pins
(`false` = LOW, `true` = HIGH), the state `doLoop` reads and writes. -/
structure MachineState (numPins : Nat) where
  toggler : TogglerState numPins
  world : Nat → Bool

/-- `digitalWrite`: update the level map at one pin. -/
def writeLevel (w : Nat → Bool) (pin : Nat) (lvl : Bool) : Nat → Bool :=
  fun p => if p = pin then lvl else w p

/-- The counter update performed for one slot by one `doLoop` pass:
`_LED_count[i] += _LED_add[i]` in `uint8_t` arithmetic, then reset to 0
when the result is `>= 8`. -/
def stepCount (c a : Nat) : Nat :=
  if 8 ≤ (c + a) % 256 then 0 else (c + a) % 256

/-- One iteration of the `for` loop body of `doLoop`, acting on the pair
(counter array, pin levels) threaded through the loop. -/
def doLoopBody (t : TogglerState n) (st : (Fin n → Nat) × (Nat → Bool)) (i : Fin n) :
    (Fin n → Nat) × (Nat → Bool) :=
  let c := (st.1 i + t.LED_add i) % 256
  if 8 ≤ c then
    (Function.update st.1 i 0,
      writeLevel st.2 (t.LED_Pins i) (! st.2 (t.LED_Pins i)))
  else
    (Function.update st.1 i c, st.2)

/-- `doLoop`: the ISR body.  Loops over all pin slots in index order,
adding each slot's increment to its counter and, on wrap (`>= 8`),
resetting the counter and inverting the pin's level. -/
def doLoop (s : MachineState n) : MachineState n :=
  let r := (List.finRange n).foldl (doLoopBody s.toggler) (s.toggler.LED_count, s.world)
  { toggler := { s.toggler with LED_count := r.1 }, world := r.2 }

/-- `k` consecutive ticks (invocations of `doLoop`). -/
def iterLoop (k : Nat) (s : MachineState n) : MachineState n :=
  doLoop^[k] s

/-- The phase trajectory of a single slot that starts at phase 0 with a fixed
increment `r`: the value of its counter after `k` ticks. -/
def phaseTraj (r : Nat) : Nat → Nat
  | 0 => 0
  | k + 1 => stepCount (phaseTraj r k) r

/-- The number of level inversions that pin `p` undergoes during the first
`K` ticks: the number of ticks after which its level differs from the level
just before that tick. -/
def toggleCount (s : MachineState n) (p : Nat) (K : Nat) : Nat :=
  ((Finset.range K).filter
    (fun j => (iterLoop (j + 1) s).world p ≠ (iterLoop j s).world p)).card

/-- The same count computed on the single-slot phase trajectory alone. -/
def pureToggles (r K : Nat) : Nat :=
  ((Finset.range K).filter (fun j => 8 ≤ (phaseTraj r j + r) % 256)).card

/-- An external stimulus applied to a live instance: a timer tick (the ISR
calling `doLoop`) or a successful rate change (the write performed by
`setFlashRate` once its checks have passed). -/
inductive Event (n : Nat) where
  | tick : Event n
  | setRate : Fin n → FLASHRATE → Event n

/-- Apply one event to the machine. -/
def applyEvent (s : MachineState n) : Event n → MachineState n
  | .tick => doLoop s
  | .setRate i r =>
    { s with toggler :=
        { s.toggler with
          LED_add := fun j => if j = i then r.val else s.toggler.LED_add j } }

/-- Run a sequence of events in order. -/
def runEvents (s : MachineState n) (es : List (Event n)) : MachineState n :=
  es.foldl applyEvent s

/-- The process-wide state: the singleton pointer `_instance` (which may hold
an instance of any pin count), the pin-direction map set by `pinMode`
(`true` = OUTPUT) and the digital level map (`false` = LOW). -/
structure GlobalState where
  inst : Option ((n : Nat) × TogglerState n)
  modes : Nat → Bool
  world : Nat → Bool

/-- One iteration of the pin-setup loop in `setupSingleton`:
`pinMode(LED_Pins[i], OUTPUT); digitalWrite(LED_Pins[i], LOW);`. -/
def setupBody (LED_Pins : Fin numPins → Nat) (st : (Nat → Bool) × (Nat → Bool))
    (i : Fin numPins) : (Nat → Bool) × (Nat → Bool) :=
  (writeLevel st.1 (LED_Pins i) true, writeLevel st.2 (LED_Pins i) false)

/-- The pin-setup loop of `setupSingleton`, threading (modes, levels). -/
def setupPins (numPins : Nat) (LED_Pins : Fin numPins → Nat)
    (mw : (Nat → Bool) × (Nat → Bool)) : (Nat → Bool) × (Nat → Bool) :=
  (List.finRange numPins).foldl (setupBody LED_Pins) mw

/-- `pinToggler<numPins>::init(LED_Pins)`.

If `_instance` is already set the function returns `-1` and changes nothing.
Otherwise it allocates the instance, stores the pin numbers, drives every
listed pin as an OUTPUT at level LOW, leaves all counters and increments at
their zero-initialised values, and stores the instance pointer.  The source
then falls off the end of this non-void function without executing any
`return` statement, so no defined value is returned on this path; the
missing return value is modelled as `none`. -/
def init (numPins : Nat) (LED_Pins : Fin numPins → Nat) (g : GlobalState) :
    Option Int × GlobalState :=
  if g.inst.isSome then
    (some (-1), g)
  else
    let mw := setupPins numPins LED_Pins (g.modes, g.world)
    (none,
      { inst := some ⟨numPins,
          { LED_Pins := LED_Pins, LED_count := fun _ => 0, LED_add := fun _ => 0 }⟩,
        modes := mw.1,
        world := mw.2 })

/-- `pinToggler<numPins>::setFlashRate(LED, rate)`: returns `-1` when no
instance exists, `-2` when the instance's pin count differs from the
template parameter `numPins` of the call, `-3` when `LED >= numPins`,
and otherwise writes `rate` into `_LED_add[LED]` and returns `0`. -/
def setFlashRate (numPins : Nat) (LED : Nat) (rate : FLASHRATE) (g : GlobalState) :
    Int × GlobalState :=
  match g.inst with
  | none => (-1, g)
  | some p =>
    if p.1 ≠ numPins then (-2, g)
    else if numPins ≤ LED then (-3, g)
    else
      (0, { g with inst := some ⟨p.1,
        { p.2 with
          LED_add := fun j => if (j : Nat) = LED then rate.val else p.2.LED_add j }⟩ })

/-- A concrete one-pin toggler instance in its post-`init` state. -/
def exToggler : TogglerState 1 :=
  { LED_Pins := fun _ => 13, LED_count := fun _ => 0, LED_add := fun _ => 0 }

/-- A concrete one-pin machine: pin 13, phase 0, rate MEDIUM (2), level LOW. -/
def exMachine : MachineState 1 :=
  { toggler := { LED_Pins := fun _ => 13, LED_count := fun _ => 0, LED_add := fun _ => 2 },
    world := fun _ => false }

/-- A concrete one-pin machine: pin 13, phase 0, rate MAX (8), level LOW. -/
def exMachineMax : MachineState 1 :=
  { toggler := { LED_Pins := fun _ => 13, LED_count := fun _ => 0, LED_add := fun _ => 8 },
    world := fun _ => false }

/-- The pin array `{13}` passed to `init`. -/
def pinsA : Fin 1 → Nat := fun _ => 13

/-- The pristine process state: `_instance == NULL`, no pin configured. -/
def gEmpty : GlobalState :=
  { inst := none, modes := fun _ => false, world := fun _ => false }

/-- A process state holding a live one-pin instance. -/
def gLive : GlobalState :=
  { inst := some ⟨1, exToggler⟩, modes := fun _ => true, world := fun _ => false }

theorem writeLevel_self (w : Nat → Bool) (pin : Nat) (lvl : Bool) :
    writeLevel w pin lvl pin = lvl := by
  simp [writeLevel]

theorem writeLevel_other (w : Nat → Bool) (pin : Nat) (lvl : Bool) (p : Nat) (h : p ≠ pin) :
    writeLevel w pin lvl p = w p := by
  simp [writeLevel, h]

theorem doLoopBody_fst (t : TogglerState n) (st : (Fin n → Nat) × (Nat → Bool)) (i : Fin n) :
    (doLoopBody t st i).1 = Function.update st.1 i (stepCount (st.1 i) (t.LED_add i)) := by
  simp only [doLoopBody, stepCount]
  split <;> rfl

theorem doLoopBody_snd (t : TogglerState n) (st : (Fin n → Nat) × (Nat → Bool)) (i : Fin n) :
    (doLoopBody t st i).2 =
      if 8 ≤ (st.1 i + t.LED_add i) % 256 then
        writeLevel st.2 (t.LED_Pins i) (! st.2 (t.LED_Pins i))
      else st.2 := by
  simp only [doLoopBody]
  split <;> rfl

theorem stepCount_lt_eight (c a : Nat) : stepCount c a < 8 := by
  unfold stepCount
  split
  · omega
  · omega

theorem stepCount_of_lt (c a : Nat) (h : c + a < 8) : stepCount c a = c + a := by
  unfold stepCount
  rw [Nat.mod_eq_of_lt (by omega)]
  simp [Nat.not_le.mpr h]

theorem stepCount_of_ge (c a : Nat) (hlt : c + a < 256) (h : 8 ≤ c + a) : stepCount c a = 0 := by
  unfold stepCount
  rw [Nat.mod_eq_of_lt hlt]
  simp [h]

theorem foldl_body_fst (t : TogglerState n) :
    ∀ (l : List (Fin n)), l.Nodup → ∀ (st : (Fin n → Nat) × (Nat → Bool)) (j : Fin n),
      (l.foldl (doLoopBody t) st).1 j =
        if j ∈ l then stepCount (st.1 j) (t.LED_add j) else st.1 j := by
  intro l
  induction l with
  | nil =>
    intro _ st j
    simp
  | cons i0 tl ih =>
    intro hnd st j
    rcases List.nodup_cons.mp hnd with ⟨hi0, htl⟩
    rw [List.foldl_cons, ih htl, doLoopBody_fst]
    by_cases hj : j = i0
    · subst hj
      simp [hi0, Function.update_same]
    · simp [Function.update_noteq hj, List.mem_cons, hj]

theorem foldl_body_snd_same (t : TogglerState n) :
    ∀ (l : List (Fin n)), l.Nodup → ∀ (st : (Fin n → Nat) × (Nat → Bool)) (p : Nat),
      (∀ i ∈ l, t.LED_Pins i = p → (st.1 i + t.LED_add i) % 256 < 8) →
      (l.foldl (doLoopBody t) st).2 p = st.2 p := by
  intro l
  induction l with
  | nil =>
    intro _ st p _
    simp
  | cons i0 tl ih =>
    intro hnd st p h
    rcases List.nodup_cons.mp hnd with ⟨hi0, htl⟩
    rw [List.foldl_cons]
    have hstep : ∀ i ∈ tl, t.LED_Pins i = p →
        ((doLoopBody t st i0).1 i + t.LED_add i) % 256 < 8 := by
      intro i hi hpi
      have hne : i ≠ i0 := fun he => hi0 (he ▸ hi)
      rw [doLoopBody_fst, Function.update_noteq hne]
      exact h i (List.mem_cons_of_mem _ hi) hpi
    rw [ih htl _ p hstep, doLoopBody_snd]
    by_cases hp : t.LED_Pins i0 = p
    · have := h i0 (List.mem_cons_self _ _) hp
      rw [if_neg (Nat.not_le.mpr this)]
    · split
      · exact writeLevel_other _ _ _ _ (fun he => hp he.symm)
      · rfl

theorem foldl_body_snd_flip (t : TogglerState n) (hinj : Function.Injective t.LED_Pins) :
    ∀ (l : List (Fin n)), l.Nodup → ∀ (st : (Fin n → Nat) × (Nat → Bool)) (i : Fin n),
      i ∈ l → 8 ≤ (st.1 i + t.LED_add i) % 256 →
      (l.foldl (doLoopBody t) st).2 (t.LED_Pins i) = ! st.2 (t.LED_Pins i) := by
  intro l
  induction l with
  | nil =>
    intro _ st i hi
    simp at hi
  | cons i0 tl ih =>
    intro hnd st i hi hwrap
    rcases List.nodup_cons.mp hnd with ⟨hi0, htl⟩
    rw [List.foldl_cons]
    rcases List.mem_cons.mp hi with he | htlmem
    · subst he
      have hsame : ∀ j ∈ tl, t.LED_Pins j = t.LED_Pins i →
          ((doLoopBody t st i).1 j + t.LED_add j) % 256 < 8 := by
        intro j hj hpj
        exact absurd (hinj hpj ▸ hj) hi0
      rw [foldl_body_snd_same t tl htl _ _ hsame, doLoopBody_snd, if_pos hwrap,
        writeLevel_self]
    · have hne : i ≠ i0 := fun he => hi0 (he ▸ htlmem)
      have hcount : (doLoopBody t st i0).1 i = st.1 i := by
        rw [doLoopBody_fst, Function.update_noteq hne]
      have hlvl : (doLoopBody t st i0).2 (t.LED_Pins i) = st.2 (t.LED_Pins i) := by
        rw [doLoopBody_snd]
        split
        · exact writeLevel_other _ _ _ _ (fun he => hne (hinj he))
        · rfl
      rw [ih htl _ i htlmem (by rw [hcount]; exact hwrap), hlvl]

theorem doLoop_count (s : MachineState n) (i : Fin n) :
    (doLoop s).toggler.LED_count i =
      stepCount (s.toggler.LED_count i) (s.toggler.LED_add i) := by
  show ((List.finRange n).foldl (doLoopBody s.toggler)
      (s.toggler.LED_count, s.world)).1 i = _
  rw [foldl_body_fst s.toggler (List.finRange n) (List.nodup_finRange n)]
  simp [List.mem_finRange]

theorem doLoop_add (s : MachineState n) :
    (doLoop s).toggler.LED_add = s.toggler.LED_add := rfl

theorem doLoop_pins (s : MachineState n) :
    (doLoop s).toggler.LED_Pins = s.toggler.LED_Pins := rfl

theorem doLoop_world_same (s : MachineState n) (p : Nat)
    (h : ∀ i, s.toggler.LED_Pins i = p →
      (s.toggler.LED_count i + s.toggler.LED_add i) % 256 < 8) :
    (doLoop s).world p = s.world p := by
  show ((List.finRange n).foldl (doLoopBody s.toggler)
      (s.toggler.LED_count, s.world)).2 p = _
  exact foldl_body_snd_same s.toggler (List.finRange n) (List.nodup_finRange n) _ p
    (fun i _ hpi => h i hpi)

theorem doLoop_world_flip (s : MachineState n)
    (hinj : Function.Injective s.toggler.LED_Pins) (i : Fin n)
    (h : 8 ≤ (s.toggler.LED_count i + s.toggler.LED_add i) % 256) :
    (doLoop s).world (s.toggler.LED_Pins i) = ! s.world (s.toggler.LED_Pins i) := by
  show ((List.finRange n).foldl (doLoopBody s.toggler)
      (s.toggler.LED_count, s.world)).2 (s.toggler.LED_Pins i) = _
  exact foldl_body_snd_flip s.toggler hinj (List.finRange n) (List.nodup_finRange n) _ i
    (List.mem_finRange i) h

theorem iterLoop_zero (s : MachineState n) : iterLoop 0 s = s := rfl

theorem iterLoop_succ (k : Nat) (s : MachineState n) :
    iterLoop (k + 1) s = doLoop (iterLoop k s) :=
  Function.iterate_succ_apply' doLoop k s

theorem iterLoop_add_eq (k : Nat) (s : MachineState n) :
    (iterLoop k s).toggler.LED_add = s.toggler.LED_add := by
  induction k with
  | zero => rfl
  | succ k ih => rw [iterLoop_succ, doLoop_add, ih]

theorem iterLoop_pins_eq (k : Nat) (s : MachineState n) :
    (iterLoop k s).toggler.LED_Pins = s.toggler.LED_Pins := by
  induction k with
  | zero => rfl
  | succ k ih => rw [iterLoop_succ, doLoop_pins, ih]

theorem iterLoop_count_traj (s : MachineState n) (i : Fin n) (r : Nat)
    (h0 : s.toggler.LED_count i = 0) (hr : s.toggler.LED_add i = r) (k : Nat) :
    (iterLoop k s).toggler.LED_count i = phaseTraj r k := by
  induction k with
  | zero => simpa [iterLoop_zero, phaseTraj] using h0
  | succ k ih =>
    rw [iterLoop_succ, doLoop_count, ih, iterLoop_add_eq, hr]
    rfl

theorem toggle_iff (s : MachineState n) (i : Fin n) (r : Nat)
    (hinj : Function.Injective s.toggler.LED_Pins)
    (h0 : s.toggler.LED_count i = 0) (hr : s.toggler.LED_add i = r) (j : Nat) :
    ((iterLoop (j + 1) s).world (s.toggler.LED_Pins i) ≠
      (iterLoop j s).world (s.toggler.LED_Pins i)) ↔
    8 ≤ (phaseTraj r j + r) % 256 := by
  have hpins := iterLoop_pins_eq j s
  have hadd := iterLoop_add_eq j s
  have hcount := iterLoop_count_traj s i r h0 hr j
  have hinj' : Function.Injective (iterLoop j s).toggler.LED_Pins := by
    rw [hpins]; exact hinj
  rw [iterLoop_succ]
  constructor
  · intro hne
    by_contra hlt
    apply hne
    apply doLoop_world_same (iterLoop j s) (s.toggler.LED_Pins i)
    intro i' hpi'
    have hii : i' = i := hinj' (by rw [hpins] at hpi' ⊢; exact hpi')
    rw [hii, hcount, congrFun hadd i, hr]
    omega
  · intro hwrap
    have hflip : (doLoop (iterLoop j s)).world ((iterLoop j s).toggler.LED_Pins i) =
        ! (iterLoop j s).world ((iterLoop j s).toggler.LED_Pins i) := by
      apply doLoop_world_flip (iterLoop j s) hinj' i
      rw [hcount, congrFun hadd i, hr]
      exact hwrap
    rw [hpins] at hflip
    rw [hflip]
    exact Bool.not_ne_self _

theorem toggleCount_eq_pure (s : MachineState n) (i : Fin n) (r : Nat)
    (hinj : Function.Injective s.toggler.LED_Pins)
    (h0 : s.toggler.LED_count i = 0) (hr : s.toggler.LED_add i = r) (K : Nat) :
    toggleCount s (s.toggler.LED_Pins i) K = pureToggles r K := by
  unfold toggleCount pureToggles
  congr 1
  apply Finset.filter_congr
  intro j _
  simpa using toggle_iff s i r hinj h0 hr j

theorem pureToggles_val (rate : FLASHRATE) : pureToggles rate.val 8 = rate.val := by
  cases rate <;> decide

theorem phaseTraj_zero (k : Nat) : phaseTraj 0 k = 0 := by
  induction k with
  | zero => rfl
  | succ k ih => simp [phaseTraj, ih, stepCount]

theorem runEvents_append (s : MachineState n) (es fs : List (Event n)) :
    runEvents s (es ++ fs) = runEvents (runEvents s es) fs :=
  List.foldl_append _ _ es fs

theorem setupBody_fold_preserve (LED_Pins : Fin numPins → Nat) :
    ∀ (l : List (Fin numPins)) (mw : (Nat → Bool) × (Nat → Bool)) (i : Fin numPins),
      mw.1 (LED_Pins i) = true → mw.2 (LED_Pins i) = false →
      (l.foldl (setupBody LED_Pins) mw).1 (LED_Pins i) = true ∧
      (l.foldl (setupBody LED_Pins) mw).2 (LED_Pins i) = false := by
  intro l
  induction l with
  | nil =>
    intro mw i h1 h2
    exact ⟨h1, h2⟩
  | cons j0 tl ih =>
    intro mw i h1 h2
    rw [List.foldl_cons]
    apply ih
    · unfold setupBody writeLevel
      by_cases hp : LED_Pins i = LED_Pins j0 <;> simp [hp, h1]
    · unfold setupBody writeLevel
      by_cases hp : LED_Pins i = LED_Pins j0 <;> simp [hp, h2]

theorem setupBody_fold_mem (LED_Pins : Fin numPins → Nat) :
    ∀ (l : List (Fin numPins)) (mw : (Nat → Bool) × (Nat → Bool)) (i : Fin numPins),
      i ∈ l →
      (l.foldl (setupBody LED_Pins) mw).1 (LED_Pins i) = true ∧
      (l.foldl (setupBody LED_Pins) mw).2 (LED_Pins i) = false := by
  intro l
  induction l with
  | nil =>
    intro mw i hi
    simp at hi
  | cons j0 tl ih =>
    intro mw i hi
    rw [List.foldl_cons]
    rcases List.mem_cons.mp hi with he | htl
    · subst he
      apply setupBody_fold_preserve
      · exact writeLevel_self _ _ _
      · exact writeLevel_self _ _ _
    · exact ih _ i htl

theorem setupPins_fst (numPins : Nat) (LED_Pins : Fin numPins → Nat)
    (mw : (Nat → Bool) × (Nat → Bool)) (i : Fin numPins) :
    (setupPins numPins LED_Pins mw).1 (LED_Pins i) = true :=
  (setupBody_fold_mem LED_Pins (List.finRange numPins) mw i (List.mem_finRange i)).1

theorem setupPins_snd (numPins : Nat) (LED_Pins : Fin numPins → Nat)
    (mw : (Nat → Bool) × (Nat → Bool)) (i : Fin numPins) :
    (setupPins numPins LED_Pins mw).2 (LED_Pins i) = false :=
  (setupBody_fold_mem LED_Pins (List.finRange numPins) mw i (List.mem_finRange i)).2

/-- C1: for every rate in {OFF, SLOW, MEDIUM, FAST, MAX} (values {0,1,2,4,8}),
a pin slot whose phase starts at 0 and whose increment is fixed at that rate
has its pin's output level inverted exactly `rate` times during 8 consecutive
`doLoop` ticks; with rate OFF (0) the pin never toggles and, having started
LOW, stays LOW forever. -/
theorem rate_toggle_count (n : Nat) (s : MachineState n) (i : Fin n) (rate : FLASHRATE)
    (hinj : Function.Injective s.toggler.LED_Pins)
    (h0 : s.toggler.LED_count i = 0)
    (hr : s.toggler.LED_add i = rate.val) :
    toggleCount s (s.toggler.LED_Pins i) 8 = rate.val ∧
    (rate = FLASHRATE.OFF → s.world (s.toggler.LED_Pins i) = false →
      ∀ k : Nat, (iterLoop k s).world (s.toggler.LED_Pins i) = false) := by
  constructor
  · rw [toggleCount_eq_pure s i rate.val hinj h0 hr, pureToggles_val]
  · rintro rfl hlow k
    induction k with
    | zero => exact hlow
    | succ k ih =>
      rw [iterLoop_succ]
      have hsame : (doLoop (iterLoop k s)).world (s.toggler.LED_Pins i) =
          (iterLoop k s).world (s.toggler.LED_Pins i) := by
        apply doLoop_world_same
        intro i' hpi'
        have hii : i' = i := by
          rw [iterLoop_pins_eq k s] at hpi'
          exact hinj hpi'
        rw [hii, iterLoop_count_traj s i FLASHRATE.OFF.val h0 hr k,
          congrFun (iterLoop_add_eq k s) i, hr]
        simp [phaseTraj_zero, FLASHRATE.val]
      rw [hsame, ih]

/-- C1 witness: on a concrete one-pin machine (pin 13, phase 0, rate MEDIUM = 2,
level LOW) eight ticks invert the pin exactly twice. -/
theorem rate_toggle_count_witness :
    exMachine.toggler.LED_count 0 = 0 ∧
    exMachine.toggler.LED_add 0 = FLASHRATE.MEDIUM.val ∧
    toggleCount exMachine (exMachine.toggler.LED_Pins 0) 8 = FLASHRATE.MEDIUM.val :=
  ⟨rfl, rfl,
    (rate_toggle_count 1 exMachine 0 FLASHRATE.MEDIUM
      (fun a b _ => Subsingleton.elim a b) rfl rfl).1⟩

/-- C2: one `doLoop` tick, for every slot `i`: the counter becomes
`count[i] + add[i]`; when that sum reaches 8 the counter is reset to 0 and the
pin's level is inverted, otherwise the counter keeps the incremented value and
the pin's level is unchanged.  Stated under the data-model invariants
(`phase < 8`, `rateIncrement ≤ 8`) and for slots controlling distinct pins. -/
theorem step_slot_semantics (n : Nat) (s : MachineState n) (i : Fin n)
    (hinj : Function.Injective s.toggler.LED_Pins)
    (hc : s.toggler.LED_count i < 8) (ha : s.toggler.LED_add i ≤ 8) :
    (8 ≤ s.toggler.LED_count i + s.toggler.LED_add i →
        (doLoop s).toggler.LED_count i = 0 ∧
        (doLoop s).world (s.toggler.LED_Pins i) = ! s.world (s.toggler.LED_Pins i)) ∧
    (s.toggler.LED_count i + s.toggler.LED_add i < 8 →
        (doLoop s).toggler.LED_count i = s.toggler.LED_count i + s.toggler.LED_add i ∧
        (doLoop s).world (s.toggler.LED_Pins i) = s.world (s.toggler.LED_Pins i)) := by
  have hlt : s.toggler.LED_count i + s.toggler.LED_add i < 256 := by omega
  constructor
  · intro hge
    refine ⟨?_, ?_⟩
    · rw [doLoop_count, stepCount_of_ge _ _ hlt hge]
    · apply doLoop_world_flip s hinj i
      rw [Nat.mod_eq_of_lt hlt]
      exact hge
  · intro hsm
    refine ⟨?_, ?_⟩
    · rw [doLoop_count, stepCount_of_lt _ _ hsm]
    · apply doLoop_world_same
      intro i' hpi'
      have hii : i' = i := hinj hpi'
      rw [hii, Nat.mod_eq_of_lt hlt]
      exact hsm

/-- C2 witness: with phase 0 and increment MAX = 8 on a one-pin machine, the
tick wraps: the counter resets to 0 and pin 13's level is inverted. -/
theorem step_slot_semantics_witness :
    (doLoop exMachineMax).toggler.LED_count 0 = 0 ∧
    (doLoop exMachineMax).world (exMachineMax.toggler.LED_Pins 0) =
      ! exMachineMax.world (exMachineMax.toggler.LED_Pins 0) :=
  (step_slot_semantics 1 exMachineMax 0 (fun a b _ => Subsingleton.elim a b)
    (by decide) (by decide)).1 (by decide)

/-- C5: starting from phases 0 with increments drawn from {0,1,2,4,8}, after
any sequence of ticks and rate changes that ends with a tick, every slot's
phase counter is strictly below 8. -/
theorem phase_lt_eight_invariant (n : Nat) (s : MachineState n) (es : List (Event n))
    (i : Fin n)
    (_hadd : ∀ j, s.toggler.LED_add j ∈ ({0, 1, 2, 4, 8} : Finset Nat))
    (_h0 : ∀ j, s.toggler.LED_count j = 0) :
    (runEvents s (es ++ [Event.tick])).toggler.LED_count i < 8 := by
  rw [runEvents_append]
  show (doLoop (runEvents s es)).toggler.LED_count i < 8
  rw [doLoop_count]
  exact stepCount_lt_eight _ _

/-- C5 witness: the invariant instantiated on the concrete one-pin machine with
an empty prefix of events followed by one tick. -/
theorem phase_lt_eight_invariant_witness :
    (∀ j : Fin 1, exMachine.toggler.LED_add j ∈ ({0, 1, 2, 4, 8} : Finset Nat)) ∧
    (runEvents exMachine ([] ++ [Event.tick])).toggler.LED_count 0 < 8 :=
  ⟨by decide, phase_lt_eight_invariant 1 exMachine [] 0 (by decide) (by decide)⟩

/-- C9: under the invariants `rateIncrement ≤ 8` and `phase < 8`, every sum
`phase[i] + rateIncrement[i]` is at most 15, the mod-256 (uint8) addition in
`doLoop` equals the exact mathematical sum, the counter update is the exact
no-wrap update, and after the tick the invariant `phase < 8` holds again (with
the increments untouched), so the same holds on every later tick. -/
theorem phase_arith_exact (n : Nat) (s : MachineState n)
    (hadd : ∀ j, s.toggler.LED_add j ≤ 8) (hc : ∀ j, s.toggler.LED_count j < 8)
    (i : Fin n) :
    s.toggler.LED_count i + s.toggler.LED_add i ≤ 15 ∧
    (s.toggler.LED_count i + s.toggler.LED_add i) % 256 =
      s.toggler.LED_count i + s.toggler.LED_add i ∧
    (doLoop s).toggler.LED_count i =
      (if 8 ≤ s.toggler.LED_count i + s.toggler.LED_add i then 0
        else s.toggler.LED_count i + s.toggler.LED_add i) ∧
    (∀ j, (doLoop s).toggler.LED_count j < 8) ∧
    (doLoop s).toggler.LED_add = s.toggler.LED_add := by
  have h15 : s.toggler.LED_count i + s.toggler.LED_add i ≤ 15 := by
    have := hadd i
    have := hc i
    omega
  have hmod : (s.toggler.LED_count i + s.toggler.LED_add i) % 256 =
      s.toggler.LED_count i + s.toggler.LED_add i :=
    Nat.mod_eq_of_lt (by omega)
  refine ⟨h15, hmod, ?_, ?_, doLoop_add s⟩
  · rw [doLoop_count]
    unfold stepCount
    rw [hmod]
  · intro j
    rw [doLoop_count]
    exact stepCount_lt_eight _ _

/-- C9 witness: the exactness facts instantiated on the concrete one-pin
machine with phase 0 and increment 2. -/
theorem phase_arith_exact_witness :
    exMachine.toggler.LED_count 0 + exMachine.toggler.LED_add 0 ≤ 15 ∧
    (exMachine.toggler.LED_count 0 + exMachine.toggler.LED_add 0) % 256 =
      exMachine.toggler.LED_count 0 + exMachine.toggler.LED_add 0 :=
  ⟨(phase_arith_exact 1 exMachine (by decide) (by decide) 0).1,
    (phase_arith_exact 1 exMachine (by decide) (by decide) 0).2.1⟩

/-- C3 (code bug): on the pristine state a first `init` call performs its
whole setup and stores the instance, but produces no return value — the
success path of the non-void `init` falls off the end without a `return`
statement (modelled as `none`), contradicting the specified success code.
The second call on the resulting state does return the AlreadyInitialized
code `-1` and leaves the whole state unchanged. -/
theorem init_missing_success_return :
    (init 1 pinsA gEmpty).1 = none ∧
    (init 1 pinsA gEmpty).2.inst.isSome = true ∧
    init 1 pinsA (init 1 pinsA gEmpty).2 = (some (-1), (init 1 pinsA gEmpty).2) :=
  ⟨rfl, rfl, rfl⟩

/-- C4: `setFlashRate` returns `-1` (NotInitialized) when no instance exists,
`-2` (ShapeMismatch) when the live instance's pin count differs from the
call's template pin count, `-3` (IndexOutOfRange) when `LED >= numPins`, and
`0` on success; on each error return the whole state (every pin slot field
included) is returned unchanged. -/
theorem setFlashRate_error_codes (numPins LED : Nat) (rate : FLASHRATE) (g : GlobalState) :
    (g.inst = none → setFlashRate numPins LED rate g = (-1, g)) ∧
    (∀ p : (m : Nat) × TogglerState m, g.inst = some p → p.1 ≠ numPins →
        setFlashRate numPins LED rate g = (-2, g)) ∧
    (∀ p : (m : Nat) × TogglerState m, g.inst = some p → p.1 = numPins →
        numPins ≤ LED → setFlashRate numPins LED rate g = (-3, g)) ∧
    (∀ p : (m : Nat) × TogglerState m, g.inst = some p → p.1 = numPins →
        LED < numPins → (setFlashRate numPins LED rate g).1 = 0) := by
  refine ⟨?_, ?_, ?_, ?_⟩
  · intro hg
    simp [setFlashRate, hg]
  · intro p hg hne
    simp [setFlashRate, hg, hne]
  · intro p hg hpe hle
    simp [setFlashRate, hg, hpe, hle]
  · intro p hg hpe hlt
    simp [setFlashRate, hg, hpe, Nat.not_le.mpr hlt]

/-- C4 witness: all four outcomes exercised on concrete states: an empty
state, and a live one-pin instance called with a mismatching shape, an
out-of-range index, and valid arguments. -/
theorem setFlashRate_error_codes_witness :
    setFlashRate 1 0 FLASHRATE.SLOW gEmpty = (-1, gEmpty) ∧
    setFlashRate 2 0 FLASHRATE.SLOW gLive = (-2, gLive) ∧
    setFlashRate 1 5 FLASHRATE.SLOW gLive = (-3, gLive) ∧
    (setFlashRate 1 0 FLASHRATE.SLOW gLive).1 = 0 :=
  ⟨(setFlashRate_error_codes 1 0 FLASHRATE.SLOW gEmpty).1 rfl,
    (setFlashRate_error_codes 2 0 FLASHRATE.SLOW gLive).2.1 ⟨1, exToggler⟩ rfl (by decide),
    (setFlashRate_error_codes 1 5 FLASHRATE.SLOW gLive).2.2.1 ⟨1, exToggler⟩ rfl rfl
      (by decide),
    (setFlashRate_error_codes 1 0 FLASHRATE.SLOW gLive).2.2.2 ⟨1, exToggler⟩ rfl rfl
      (by decide)⟩

/-- C6: after a successful `init(LED_Pins)`, the stored instance holds exactly
the given pin numbers, every counter and every increment is 0 (rate OFF), and
every listed pin is configured as an OUTPUT driven to level LOW. -/
theorem init_postcondition (numPins : Nat) (LED_Pins : Fin numPins → Nat)
    (g : GlobalState) (h : g.inst = none) :
    ∃ t : TogglerState numPins,
      (init numPins LED_Pins g).2.inst = some ⟨numPins, t⟩ ∧
      (∀ i, t.LED_Pins i = LED_Pins i) ∧
      (∀ i, t.LED_count i = 0) ∧
      (∀ i, t.LED_add i = 0) ∧
      (∀ i, (init numPins LED_Pins g).2.modes (LED_Pins i) = true) ∧
      (∀ i, (init numPins LED_Pins g).2.world (LED_Pins i) = false) := by
  have hs : g.inst.isSome = false := by rw [h]; rfl
  refine ⟨{ LED_Pins := LED_Pins, LED_count := fun _ => 0, LED_add := fun _ => 0 },
    ?_, fun _ => rfl, fun _ => rfl, fun _ => rfl, ?_, ?_⟩
  · simp [init, hs]
  · intro i
    simp only [init, hs, Bool.false_eq_true, if_false]
    exact setupPins_fst numPins LED_Pins (g.modes, g.world) i
  · intro i
    simp only [init, hs, Bool.false_eq_true, if_false]
    exact setupPins_snd numPins LED_Pins (g.modes, g.world) i

/-- C6 witness: the post-state of `init` on the pristine state with the pin
array `{13}`. -/
theorem init_postcondition_witness :
    gEmpty.inst = none ∧
    ∃ t : TogglerState 1,
      (init 1 pinsA gEmpty).2.inst = some ⟨1, t⟩ ∧
      (∀ i, t.LED_Pins i = pinsA i) ∧
      (∀ i, t.LED_count i = 0) ∧
      (∀ i, t.LED_add i = 0) ∧
      (∀ i, (init 1 pinsA gEmpty).2.modes (pinsA i) = true) ∧
      (∀ i, (init 1 pinsA gEmpty).2.world (pinsA i) = false) :=
  ⟨rfl, init_postcondition 1 pinsA gEmpty rfl⟩

/-- C7: a successful `setFlashRate(LED, rate)` writes `rate` into
`_LED_add[LED]` and changes nothing else — all other increments, every
counter, every stored pin number, the pin modes and every pin output level
are unchanged; conversely a `doLoop` tick never changes `_LED_add` or
`_LED_Pins` (it mutates only counters and pin levels). -/
theorem setRate_success_frame (numPins LED : Nat) (rate : FLASHRATE) (g : GlobalState)
    (t : TogglerState numPins) (hg : g.inst = some ⟨numPins, t⟩) (hLED : LED < numPins) :
    ((setFlashRate numPins LED rate g).1 = 0 ∧
      ∃ t' : TogglerState numPins,
        (setFlashRate numPins LED rate g).2 =
          { inst := some ⟨numPins, t'⟩, modes := g.modes, world := g.world } ∧
        (∀ j : Fin numPins, (j : Nat) = LED → t'.LED_add j = rate.val) ∧
        (∀ j : Fin numPins, (j : Nat) ≠ LED → t'.LED_add j = t.LED_add j) ∧
        t'.LED_count = t.LED_count ∧
        t'.LED_Pins = t.LED_Pins) ∧
    (∀ (m : Nat) (s : MachineState m),
        (doLoop s).toggler.LED_add = s.toggler.LED_add ∧
        (doLoop s).toggler.LED_Pins = s.toggler.LED_Pins) := by
  constructor
  · constructor
    · simp [setFlashRate, hg, Nat.not_le.mpr hLED]
    · refine ⟨{ t with
          LED_add := fun j => if (j : Nat) = LED then rate.val else t.LED_add j },
        ?_, fun j hj => by simp [hj], fun j hj => by simp [hj], rfl, rfl⟩
      simp [setFlashRate, hg, Nat.not_le.mpr hLED]
  · intro m s
    exact ⟨doLoop_add s, doLoop_pins s⟩

/-- C7 witness: the frame conditions on the concrete live one-pin state and on
the concrete one-pin machine. -/
theorem setRate_success_frame_witness :
    (setFlashRate 1 0 FLASHRATE.FAST gLive).1 = 0 ∧
    (doLoop exMachine).toggler.LED_add = exMachine.toggler.LED_add :=
  ⟨((setRate_success_frame 1 0 FLASHRATE.FAST gLive exToggler rfl (by decide)).1).1,
    ((setRate_success_frame 1 0 FLASHRATE.FAST gLive exToggler rfl
      (by decide)).2 1 exMachine).1⟩

/-- C8: `setFlashRate` is idempotent — calling it twice with the same
arguments returns the same code and leaves the system in exactly the state
one call produces, on the success path as well as on every error path. -/
theorem setFlashRate_idempotent (numPins LED : Nat) (rate : FLASHRATE) (g : GlobalState) :
    setFlashRate numPins LED rate (setFlashRate numPins LED rate g).2 =
      setFlashRate numPins LED rate g := by
  rcases hg : g.inst with _ | p
  · simp [setFlashRate, hg]
  · by_cases hne : p.1 ≠ numPins
    · simp [setFlashRate, hg, hne]
    · push_neg at hne
      by_cases hle : numPins ≤ LED
      · simp [setFlashRate, hg, hne, hle]
      · have hupd : (fun j : Fin p.1 => if (j : Nat) = LED then rate.val
            else if (j : Nat) = LED then rate.val else p.2.LED_add j) =
            (fun j : Fin p.1 => if (j : Nat) = LED then rate.val else p.2.LED_add j) := by
          funext j
          by_cases hj : (j : Nat) = LED <;> simp [hj]
        simp [setFlashRate, hg, hne, hle, hupd]

/-- C10: the error checks of `setFlashRate` have a fixed precedence: no
instance always reports `-1` whatever the other arguments; a live instance
with a mismatching pin count always reports `-2` even when the index is also
out of range; and `-3` is reported only when an instance exists, its shape
matches, and the index is out of range. -/
theorem setFlashRate_error_precedence (numPins LED : Nat) (rate : FLASHRATE)
    (g : GlobalState) :
    (g.inst = none → (setFlashRate numPins LED rate g).1 = -1) ∧
    (∀ p : (m : Nat) × TogglerState m, g.inst = some p → p.1 ≠ numPins →
        (setFlashRate numPins LED rate g).1 = -2) ∧
    ((setFlashRate numPins LED rate g).1 = -3 →
        ∃ p : (m : Nat) × TogglerState m,
          g.inst = some p ∧ p.1 = numPins ∧ numPins ≤ LED) := by
  refine ⟨?_, ?_, ?_⟩
  · intro hg
    simp [setFlashRate, hg]
  · intro p hg hne
    simp [setFlashRate, hg, hne]
  · intro h3
    unfold setFlashRate at h3
    rcases hg : g.inst with _ | p
    · rw [hg] at h3
      simp at h3
    · rw [hg] at h3
      refine ⟨p, rfl, ?_⟩
      by_cases hne : p.1 ≠ numPins
      · simp [hne] at h3
      · push_neg at hne
        by_cases hle : numPins ≤ LED
        · exact ⟨hne, hle⟩
        · simp [hne, hle] at h3

/-- C10 witness: with a live one-pin instance, a call whose shape and index
are both wrong reports the shape error `-2`; on the empty state the same call
reports `-1`. -/
theorem setFlashRate_error_precedence_witness :
    (setFlashRate 2 9 FLASHRATE.SLOW gEmpty).1 = -1 ∧
    (setFlashRate 2 9 FLASHRATE.SLOW gLive).1 = -2 :=
  ⟨(setFlashRate_error_precedence 2 9 FLASHRATE.SLOW gEmpty).1 rfl,
    (setFlashRate_error_precedence 2 9 FLASHRATE.SLOW gLive).2.1 ⟨1, exToggler⟩ rfl
      (by decide)⟩

end pinToggler
